import Mathlib

/-!
# octwirp: OpenCensus tracing and metrics for twirp services

A shallow embedding of `octwirp.go`.  The package is glue between three
libraries (twirp, OpenCensus `tag`/`trace`/`stats`, `net/http`), so the
embedding has two layers:

* the library operations the package calls, modelled after their documented
  behaviour (`fmt.Sprintf` without operands, `tag.New`/`tag.Insert`,
  `trace.StartSpan`, `Span.AddAttributes`, `Span.End`, `stats.Record`, the
  twirp context accessors);
* the package itself (`WrapTransport`, `beforeTransport.RoundTrip`,
  `afterTransport.RoundTrip`, `Tracer.requestReceived`, `Tracer.requestRouted`,
  `Tracer.responseSent`, the tag keys and the views), translated line by line.

Calls into the tracing and stats libraries are side effects; they are made
explicit as an append-only log of events in a `World` that is threaded through
every stateful function.
-/

set_option autoImplicit false

/-! ## fmt.Sprintf with a format string and no operands -/

namespace fmt

def percentSign : Char := '%'

/-- The flag characters skipped right after a percent sign. -/
def isFlag (c : Char) : Bool :=
  c == '#' || c == '0' || c == '+' || c == '-' || c == ' '

def isDigit (c : Char) : Bool := '0' ≤ c && c ≤ '9'

/-- Helper `tooLarge` of package fmt: numbers beyond a million are refused. -/
def tooLarge (x : Nat) : Bool := x > 1000000

/-- The digit loop of `parsenum`: `none` on overflow, otherwise the number read
so far, whether a digit was seen, and the text left. -/
def parsenumLoop : List Char → Nat → Bool → Option (Nat × Bool × List Char)
  | [], num, isnum => some (num, isnum, [])
  | c :: cs, num, isnum =>
    if isDigit c then
      if tooLarge num then none
      else parsenumLoop cs (num * 10 + (c.toNat - '0'.toNat)) true
    else some (num, isnum, c :: cs)

/-- Function `parsenum(s, start, end)` on the text `s[start:end]`: the number,
whether there was one, and the unread part of `s[start:end]`.  On overflow the
whole range counts as read. -/
def parsenum (s : List Char) : Nat × Bool × List Char :=
  match parsenumLoop s 0 false with
  | some r => r
  | none => (0, false, [])

/-- Function `parseArgNumber(format)` for a format that starts with `[`:
how many characters the index takes and whether it is well formed.  The index
itself is not returned: without operands no index is in range. -/
def parseArgNumber (format : List Char) : Nat × Bool :=
  if format.length < 3 then (1, false)
  else
    match (format.drop 1).indexOf? ']' with
    | none => (1, false)
    | some j =>
      -- the closing bracket is `format[j+1]`; the number is `format[1:j+1]`
      let (_, ok, left) := parsenum ((format.drop 1).take j)
      if !ok || !left.isEmpty then (j + 2, false) else (j + 2, true)

/-- Method `argNumber` when there are no operands (`numArgs = 0`): the text
left, `found`, and whether `goodArgNum` has been cleared. -/
def argNumber (format : List Char) : List Char × Bool × Bool :=
  match format with
  | '[' :: _ =>
    let (wid, ok) := parseArgNumber format
    (format.drop wid, ok, true)
  | _ => (format, false, false)

/-- Result of formatting one verb: the text written and the format left;
`none` for the format left means the loop was left by `break`. -/
structure VerbResult where
  out : List Char
  rest : Option (List Char)
deriving DecidableEq, Repr

/-- The body of the loop of `doPrintf` after a percent sign, when the operand
list is empty: flags, argument index, width, precision, argument index, verb. -/
def verb (format : List Char) : VerbResult :=
  -- flags
  let f := format.dropWhile isFlag
  -- explicit argument index
  let (f, afterIndex, bad1) := argNumber f
  -- width
  let (f, afterIndex, bad2, out1) :=
    match f with
    | '*' :: f1 => (f1, false, false, "%!(BADWIDTH)".toList)
    | _ =>
      let (_, widPresent, f1) := parsenum f
      (f1, afterIndex, afterIndex && widPresent, [])
  -- precision
  let (f, afterIndex, bad3, out2) :=
    match f with
    | '.' :: c :: f0 =>
      -- a precision starts only when a character follows the dot (`i+1 < end`)
      let f1 := c :: f0
      let (f2, afterIndex2, bad) := argNumber f1
      match f2 with
      | '*' :: f3 => (f3, false, afterIndex || bad, "%!(BADPREC)".toList)
      | _ =>
        let (_, _, f3) := parsenum f2
        (f3, afterIndex2, afterIndex || bad, [])
    | _ => (f, afterIndex, false, [])
  let (f, bad4) :=
    if !afterIndex then
      let (f1, _, bad) := argNumber f
      (f1, bad)
    else (f, false)
  let goodArgNum := !(bad1 || bad2 || bad3 || bad4)
  match f with
  | [] => ⟨out1 ++ out2 ++ "%!(NOVERB)".toList, none⟩
  | v :: f1 =>
    if v == '%' then ⟨out1 ++ out2 ++ [percentSign], some f1⟩
    else if !goodArgNum then
      ⟨out1 ++ out2 ++ "%!".toList ++ [v] ++ "(BADINDEX)".toList, some f1⟩
    else ⟨out1 ++ out2 ++ "%!".toList ++ [v] ++ "(MISSING)".toList, some f1⟩

/-- The format loop of `doPrintf` with an empty operand list.  Every round
reads at least one character, so fuel equal to the length of the format is
enough. -/
def doPrintf : Nat → List Char → List Char
  | 0, _ => []
  | _ + 1, [] => []
  | fuel + 1, c :: cs =>
    if c == percentSign then
      match verb cs with
      | ⟨out, some left⟩ => out ++ doPrintf fuel left
      | ⟨out, none⟩ => out
    else c :: doPrintf fuel cs

/-- Call `fmt.Sprintf(format)` with no operands. -/
def Sprintf (format : String) : String :=
  String.mk (doPrintf format.length format.toList)

end fmt

/-! ## Go basics -/

/-- A Go `error` value: `none` is `nil`, otherwise the message. -/
abbrev error := Option String

/-! ## go.opencensus.io/tag -/

namespace tag

/-- Type `tag.Key`: a key is its name. -/
structure Key where
  name : String
deriving DecidableEq, Repr

def maxKeyLength : Nat := 255

/-- Function `isASCII` of package tag: every character is printable ASCII,
between the space (32) and the tilde (126). -/
def isASCII (s : String) : Bool :=
  s.toList.all (fun c => 32 ≤ c.toNat && c.toNat ≤ 126)

def checkKeyName (name : String) : Bool :=
  if name.utf8ByteSize == 0 then false
  else if name.utf8ByteSize > maxKeyLength then false
  else isASCII name

def checkValue (v : String) : Bool :=
  if v.utf8ByteSize > maxKeyLength then false
  else isASCII v

def errInvalidKeyName : String :=
  "invalid key name: only ASCII characters accepted; max length must be 255 characters"

def errInvalidValue : String :=
  "invalid value: only ASCII characters accepted; max length must be 255 characters"

/-- Function `tag.NewKey`: the zero key and an error for an invalid name. -/
def NewKey (name : String) : Key × error :=
  if !checkKeyName name then (⟨""⟩, some errInvalidKeyName)
  else (⟨name⟩, none)

def Key.Name (k : Key) : String := k.name

/-- Type `tag.Map`: the entries of the Go map, in the order they were added. -/
abbrev Map := List (Key × String)

/-- Method `Map.Value`: the value of a key, `none` when the key has no entry. -/
def Map.Value (m : Map) (k : Key) : Option String := m.lookup k

/-- Method `Map.insert`: an entry is added only when the key has none yet. -/
def Map.insert (m : Map) (k : Key) (v : String) : Map :=
  if (m.lookup k).isSome then m else m ++ [(k, v)]

/-- Type `tag.Mutator`: changes a map or fails. -/
structure Mutator where
  Mutate : Map → Except String Map

/-- Function `tag.Insert`: "inserts a value associated with k. If k already
exists in the tag map, mutator doesn't update the value." -/
def Insert (k : Key) (v : String) : Mutator :=
  ⟨fun m => if !checkValue v then .error errInvalidValue else .ok (m.insert k v)⟩

/-- The loop of `tag.New` that applies the mutators in order and stops at the
first error. -/
def applyMutators : List Mutator → Map → Except String Map
  | [], m => .ok m
  | mod :: rest, m =>
    match mod.Mutate m with
    | .error e => .error e
    | .ok m1 => applyMutators rest m1

/-- The loop of `tag.New` that copies the entries of the original map into
the new map, refusing an invalid key name or value. -/
def copyEntries : Map → Map → Except String Map
  | [], m => .ok m
  | (k, v) :: rest, m =>
    if !checkKeyName k.Name then .error errInvalidKeyName
    else if !checkValue v then .error errInvalidValue
    else copyEntries rest (m.insert k v)

end tag

/-! ## go.opencensus.io/trace: the data -/

namespace trace

/-- A `*trace.Span`: spans are told apart by the number they got at creation. -/
structure Span where
  id : Nat
deriving DecidableEq, Repr

/-- Type `trace.Sampler` is a function type in Go; here a sampler is a handle. -/
abbrev Sampler := Nat

def SpanKindUnspecified : Nat := 0
def SpanKindServer : Nat := 1
def SpanKindClient : Nat := 2

structure StartOptions where
  Sampler : Option Sampler
  SpanKind : Nat
deriving DecidableEq, Repr

/-- Type `trace.StartOption`: a change to the start options. -/
abbrev StartOption := StartOptions → StartOptions

def WithSampler (sampler : Option Sampler) : StartOption :=
  fun o => { o with Sampler := sampler }

def WithSpanKind (spanKind : Nat) : StartOption :=
  fun o => { o with SpanKind := spanKind }

/-- Type `trace.Attribute`, for the string attributes the package uses. -/
structure Attribute where
  key : String
  value : String
deriving DecidableEq, Repr

def StringAttribute (key value : String) : Attribute := ⟨key, value⟩

end trace

/-! ## The package's per-request state and the world -/

/-- Struct `hookState` of octwirp.go; times are nanoseconds on the monotonic
clock. -/
structure hookState where
  startTime : Nat
  span : trace.Span
deriving DecidableEq, Repr

/-- A side effect: a call into the tracing or the stats library, or the
allocation of a `hookState`.  The log holds the calls as the package makes
them; what the libraries do with a call (a span that is not sampled drops its
attributes, a measure without a view is not aggregated) is not part of it. -/
inductive Event where
  /-- Call `trace.StartSpan` returned `span`; `parent` is the span of the context. -/
  | StartSpan (span : trace.Span) (parent : Option trace.Span) (name : String)
      (opts : trace.StartOptions)
  /-- Call `span.AddAttributes(attrs...)`. -/
  | AddAttributes (span : trace.Span) (attrs : List trace.Attribute)
  /-- Call `span.End()`. -/
  | End (span : trace.Span)
  /-- Call `stats.Record` of one measurement of `measure` under the tags of
  the context (`none`: the context has no tag map).  The source records the
  elapsed time in milliseconds as a float, `diff.Seconds()*1000`; the log keeps
  the duration `diff` itself, in nanoseconds. -/
  | Record (tags : Option tag.Map) (measure : String) (elapsedNanos : Nat)
  /-- A `hookState` was allocated. -/
  | NewHookState (hs : hookState)
deriving DecidableEq, Repr

/-- What the package's code acts on besides its arguments. -/
structure World where
  /-- the side effects so far, oldest first -/
  events : List Event
  /-- the number the next span gets -/
  nextSpan : Nat
  /-- the monotonic clock, in nanoseconds -/
  now : Nat
deriving DecidableEq, Repr

def World.log (w : World) (e : Event) : World :=
  { w with events := w.events ++ [e] }

/-- The clock moves on by `d` nanoseconds. -/
def World.advance (w : World) (d : Nat) : World :=
  { w with now := w.now + d }

/-! ## context -/

namespace context

/-- A `context.Context`, as seen by this package: one slot for each key under
which twirp, the tag library, the trace library or this package stores a value.
`none` means the context has no value for the key. -/
structure Context where
  /-- twirp: the package name of the service -/
  PackageName : Option String
  /-- twirp: the service name -/
  ServiceName : Option String
  /-- twirp: the method name, set once the request is routed -/
  MethodName : Option String
  /-- twirp: the status code of the response -/
  StatusCode : Option String
  /-- the tag map stored by `tag.NewContext` -/
  tags : Option tag.Map
  /-- the span stored by `trace.NewContext` -/
  span : Option trace.Span
  /-- the value under `hookStateKey` -/
  hookState : Option hookState
deriving DecidableEq, Repr

def Background : Context := ⟨none, none, none, none, none, none, none⟩

end context

/-! ## github.com/twitchtv/twirp: the context accessors -/

namespace twirp

def PackageName (ctx : context.Context) : String × Bool :=
  (ctx.PackageName.getD "", ctx.PackageName.isSome)

def ServiceName (ctx : context.Context) : String × Bool :=
  (ctx.ServiceName.getD "", ctx.ServiceName.isSome)

def MethodName (ctx : context.Context) : String × Bool :=
  (ctx.MethodName.getD "", ctx.MethodName.isSome)

def StatusCode (ctx : context.Context) : String × Bool :=
  (ctx.StatusCode.getD "", ctx.StatusCode.isSome)

/-- What twirp does before it calls the sent hook: `ctxsetters.WithStatusCode`. -/
def WithStatusCode (ctx : context.Context) (code : String) : context.Context :=
  { ctx with StatusCode := some code }

end twirp

/-! ## tag, trace, stats, time: the operations on contexts and the world -/

def tag.FromContext (ctx : context.Context) : Option tag.Map := ctx.tags

def tag.NewContext (ctx : context.Context) (m : Option tag.Map) : context.Context :=
  { ctx with tags := m }

/-- Function `tag.New`: "returns a new context that contains a tag map
originated from the incoming context and modified with the provided mutators."
An invalid entry of the original map returns the context as it is, with an
error; a mutator that fails returns the context with the original map, with
the error. -/
def tag.New (ctx : context.Context) (mutator : List tag.Mutator) : context.Context × error :=
  let orig := tag.FromContext ctx
  match tag.copyEntries (orig.getD []) [] with
  | .error e => (ctx, some e)
  | .ok m =>
    match tag.applyMutators mutator m with
    | .error e => (tag.NewContext ctx orig, some e)
    | .ok m1 => (tag.NewContext ctx (some m1), none)

def trace.FromContext (ctx : context.Context) : Option trace.Span := ctx.span

def trace.NewContext (ctx : context.Context) (s : trace.Span) : context.Context :=
  { ctx with span := some s }

/-- Function `trace.StartSpan`: starts a new span, child of the span of the
context if there is one, and returns it with a context that holds it. -/
def trace.StartSpan (ctx : context.Context) (name : String) (o : List trace.StartOption)
    (w : World) : (context.Context × trace.Span) × World :=
  let parent := trace.FromContext ctx
  let opts := o.foldl (fun opts op => op opts) (⟨none, trace.SpanKindUnspecified⟩ : trace.StartOptions)
  let span : trace.Span := ⟨w.nextSpan⟩
  let w := { w with nextSpan := w.nextSpan + 1 }
  let w := w.log (Event.StartSpan span parent name opts)
  ((trace.NewContext ctx span, span), w)

def trace.Span.AddAttributes (s : trace.Span) (attributes : List trace.Attribute)
    (w : World) : World :=
  w.log (Event.AddAttributes s attributes)

def trace.Span.End (s : trace.Span) (w : World) : World :=
  w.log (Event.End s)

/-- Function `stats.Record` of one measurement: "If there are any tags in
the context, measurements will be tagged with them." -/
def stats.Record (ctx : context.Context) (measure : String) (elapsedNanos : Nat)
    (w : World) : World :=
  w.log (Event.Record (tag.FromContext ctx) measure elapsedNanos)

def time.Now (w : World) : Nat := w.now

def time.Since (t : Nat) (w : World) : Nat := w.now - t

/-! ## net/http -/

namespace http

structure Request where
  Method : String
  URL : String
  ctx : Option context.Context
deriving DecidableEq, Repr

/-- Method `Request.Context`: "The returned context is always non-nil; it defaults
to the background context." -/
def Request.Context (r : Request) : context.Context :=
  r.ctx.getD context.Background

/-- Method `Request.WithContext`: a shallow copy with the context changed. -/
def Request.WithContext (r : Request) (ctx : context.Context) : Request :=
  { r with ctx := some ctx }

structure Response where
  StatusCode : Nat
  /-- "the request that was sent to obtain this Response" -/
  Request : Option Request
deriving DecidableEq, Repr

/-- Interface `http.RoundTripper`: a value of the interface is its method. -/
structure RoundTripper where
  RoundTrip : Request → World → (Option Response × error) × World

end http

/-! ## go.opencensus.io/stats, stats/view and plugin/ochttp: declarations -/

namespace stats

structure Measure where
  name : String
  description : String
  unit : String
deriving DecidableEq, Repr

def UnitMilliseconds : String := "ms"

def Float64 (name description unit : String) : Measure := ⟨name, description, unit⟩

end stats

namespace view

/-- The two aggregations the package uses: `view.Count()` and the latency
distribution `ochttp.DefaultLatencyDistribution`. -/
inductive Aggregation where
  | Count
  | DefaultLatencyDistribution
deriving DecidableEq, Repr

structure View where
  Name : String
  Description : String
  TagKeys : List tag.Key
  Measure : stats.Measure
  Aggregation : Aggregation
deriving DecidableEq, Repr

end view

namespace ochttp

/-- Variable `ochttp.StatusCode`: the tag key `http.status`, "the numeric
HTTP response status code, or "error" if a transport error occurred".  (The
name `http.status_code` is that of the span attribute
`ochttp.StatusCodeAttribute`, not of this key.) -/
def StatusCode : tag.Key := (tag.NewKey "http.status").1

/-- Variable `ochttp.ClientRoundtripLatency`. -/
def ClientRoundtripLatency : stats.Measure :=
  stats.Float64 "opencensus.io/http/client/roundtrip_latency"
    "Time between first byte of request headers sent to last byte of response received, or terminal error"
    stats.UnitMilliseconds

/-- Struct `ochttp.Transport`.  The fields that hold an interface or a
function are handles, `none` for nil, except `Base`. -/
structure Transport where
  Base : Option http.RoundTripper
  Propagation : Option Nat
  StartOptions : trace.StartOptions
  GetStartOptions : Option Nat
  FormatSpanName : Option Nat
  NewClientTrace : Option Nat

end ochttp

/-! ## octwirp.go -/

/-- PackageName is the twirp package -/
def PackageName : tag.Key := (tag.NewKey "twirp.package").1

/-- ServiceName is the twirp service -/
def ServiceName : tag.Key := (tag.NewKey "twirp.service").1

/-- MethodName is the twirp method -/
def MethodName : tag.Key := (tag.NewKey "twirp.method").1

/-- StatusCode is the twirp code -/
def StatusCode : tag.Key := (tag.NewKey "twirp.status").1

/-- ServerLatency measures server side latency -/
def ServerLatency : stats.Measure :=
  stats.Float64 "twirp/server/latency" "End-to-end latency" stats.UnitMilliseconds

/-- ServerLatencyView measures the latency distribution of HTTP requests -/
def ServerLatencyView : view.View :=
  { Name := "twirp/server/latency"
    Description := "Latency distribution of HTTP requests"
    Measure := ServerLatency
    Aggregation := view.Aggregation.DefaultLatencyDistribution
    TagKeys := [PackageName, ServiceName, MethodName, StatusCode] }

/-- ServerResponseView measures the server response count -/
def ServerResponseView : view.View :=
  { Name := "twirp/server/response_count"
    Description := "Server response count"
    TagKeys := [PackageName, ServiceName, MethodName, StatusCode]
    Measure := ServerLatency
    Aggregation := view.Aggregation.Count }

/-- ClientRoundtripLatency measures end to end latency from the client perspective. -/
def ClientRoundtripLatency : view.View :=
  { Name := "twirp/client/roundtrip_latency"
    Measure := ochttp.ClientRoundtripLatency
    Aggregation := view.Aggregation.DefaultLatencyDistribution
    Description := "End-to-end latency"
    TagKeys := [PackageName, ServiceName, MethodName, ochttp.StatusCode] }

structure beforeTransport where
  next : http.RoundTripper

def beforeTransport.RoundTrip (t : beforeTransport) (r : http.Request) (w : World) :
    (Option http.Response × error) × World :=
  let ctx := r.Context
  let p := (twirp.PackageName ctx).1
  let s := (twirp.ServiceName ctx).1
  let m := (twirp.MethodName ctx).1
  let ctx := (tag.New ctx
    [tag.Insert PackageName p,
     tag.Insert ServiceName s,
     tag.Insert MethodName m]).1
  let r := r.WithContext ctx
  t.next.RoundTrip r w

structure afterTransport where
  next : http.RoundTripper

def afterTransport.RoundTrip (t : afterTransport) (r : http.Request) (w : World) :
    (Option http.Response × error) × World :=
  let ctx := r.Context
  let w :=
    match trace.FromContext ctx with
    | some span =>
      let p := (twirp.PackageName ctx).1
      let s := (twirp.ServiceName ctx).1
      let m := (twirp.MethodName ctx).1
      span.AddAttributes
        [trace.StringAttribute PackageName.Name p,
         trace.StringAttribute ServiceName.Name s,
         trace.StringAttribute MethodName.Name m] w
    | none => w
  t.next.RoundTrip r w

/-- An `*afterTransport` as an `http.RoundTripper`. -/
def afterTransport.toRoundTripper (t : afterTransport) : http.RoundTripper :=
  ⟨t.RoundTrip⟩

/-- WrapTransport wraps the ochttp transport to inject twirp metadata.

Two things of the libraries are arguments: `asRoundTripper`, an
`*ochttp.Transport` as an `http.RoundTripper` (its method `RoundTrip`), and
`DefaultTransport`, the variable `http.DefaultTransport`.  The argument `base`
is what the pointer `base` points to.  The result is the `beforeTransport` the
returned pointer points to, and what `base` points to when the function
returns. -/
def WrapTransport (asRoundTripper : ochttp.Transport → http.RoundTripper)
    (DefaultTransport : http.RoundTripper) (base : ochttp.Transport) :
    beforeTransport × ochttp.Transport :=
  -- before -> ochttp -> after -> base
  let o := base
  let orig :=
    match o.Base with
    | none => DefaultTransport
    | some orig => orig
  let a : afterTransport := { next := orig }
  let o := { o with Base := some a.toRoundTripper }
  let b : beforeTransport := { next := asRoundTripper o }
  (b, base)

/-- Tracer adds Opencensus tracing and metrics to twirp servers. -/
structure Tracer where
  Propagation : Option Nat
  StartOptions : trace.StartOptions
deriving DecidableEq, Repr

/-- The statement `context.WithValue(ctx, hookStateKey, &hs)`. -/
def context.WithHookState (ctx : context.Context) (hs : hookState) : context.Context :=
  { ctx with hookState := some hs }

def Tracer.requestReceived (t : Tracer) (ctx : context.Context) (w : World) :
    (context.Context × error) × World :=
  -- method name has not been set by twirp yet
  let p := (twirp.PackageName ctx).1
  let s := (twirp.ServiceName ctx).1
  let ctx := (tag.New ctx
    [tag.Insert PackageName p,
     tag.Insert ServiceName s]).1
  let started := trace.StartSpan ctx
    (fmt.Sprintf (p ++ "." ++ s))
    [trace.WithSampler t.StartOptions.Sampler,
     trace.WithSpanKind trace.SpanKindServer] w
  let ctx := started.1.1
  let span := started.1.2
  let w := started.2
  let w := span.AddAttributes
    [trace.StringAttribute PackageName.Name p,
     trace.StringAttribute ServiceName.Name s] w
  let hs : hookState :=
    { startTime := time.Now w
      span := span }
  let w := w.log (Event.NewHookState hs)
  let ctx := context.WithHookState ctx hs
  ((ctx, none), w)

def Tracer.requestRouted (_t : Tracer) (ctx : context.Context) (w : World) :
    (context.Context × error) × World :=
  match ctx.hookState with
  | none => ((ctx, none), w)
  | some hs =>
    let m := (twirp.MethodName ctx).1
    let ctx := (tag.New ctx
      [tag.Insert MethodName m]).1
    let w := hs.span.AddAttributes
      [trace.StringAttribute MethodName.Name m] w
    ((ctx, none), w)

def Tracer.responseSent (_t : Tracer) (ctx : context.Context) (w : World) : World :=
  let s := (twirp.StatusCode ctx).1
  let ctx := (tag.New ctx [tag.Insert StatusCode s]).1
  match ctx.hookState with
  | none => w
  | some hs =>
    let w := hs.span.AddAttributes [trace.StringAttribute StatusCode.Name s] w
    let w := hs.span.End w
    let diff := time.Since hs.startTime w
    stats.Record ctx ServerLatency.name diff w

/-! ## The life of one request on the server

The twirp server calls the hooks in this order, each with the context the
hook before it returned: `RequestReceived`, then (when the request can be
routed) `RequestRouted`, then `ResponseSent`.  Before `ResponseSent` twirp
stores the status code in the context.  Between two hooks time passes. -/

/-- The context twirp gives to the sent hook: the status code is stored
when there is one. -/
def withStatus (ctx : context.Context) (code : Option String) : context.Context :=
  match code with
  | some c => twirp.WithStatusCode ctx c
  | none => ctx

/-- RequestReceived, then RequestRouted if `routed`; `d1` is the time that
passes after RequestReceived.  The result is what the last hook returned and
the world then. -/
def serveRouted (t : Tracer) (routed : Bool) (d1 : Nat)
    (ctx : context.Context) (w : World) : (context.Context × error) × World :=
  let r1 := t.requestReceived ctx w
  if routed then t.requestRouted r1.1.1 (r1.2.advance d1)
  else (r1.1, r1.2.advance d1)

/-- RequestReceived, RequestRouted if `routed`, then ResponseSent with status
`code`; `d1` and `d2` are the times that pass between the hooks.  The result
is the context given to ResponseSent and the world at the end. -/
def serve (t : Tracer) (routed : Bool) (code : Option String) (d1 d2 : Nat)
    (ctx : context.Context) (w : World) : context.Context × World :=
  let r2 := serveRouted t routed d1 ctx w
  let ctx3 := withStatus r2.1.1 code
  (ctx3, t.responseSent ctx3 (r2.2.advance d2))

/-! ## Reading the log of side effects -/

/-- The hook states allocated by the events, in order. -/
def allocated (evs : List Event) : List hookState :=
  evs.filterMap fun e =>
    match e with
    | Event.NewHookState hs => some hs
    | _ => none

/-- The spans ended by the events, one entry for each call of `End`. -/
def ended (evs : List Event) : List trace.Span :=
  evs.filterMap fun e =>
    match e with
    | Event.End s => some s
    | _ => none

/-- The measurements recorded by the events: for each, the tag map it is
recorded under and the name of the measure. -/
def recorded (evs : List Event) : List (Option tag.Map × String) :=
  evs.filterMap fun e =>
    match e with
    | Event.Record tags measure _ => some (tags, measure)
    | _ => none

/-- The events a step added: those of the later log after the earlier one. -/
def eventsSince (before after : World) : List Event :=
  after.events.drop before.events.length

/-! ## Test doubles -/

/-- A transport that answers every request with status 200 and, as the
standard transports do, sets the field `Request` of the response. -/
def echoTransport : http.RoundTripper :=
  ⟨fun r w => ((some ⟨200, some r⟩, none), w)⟩

def emptyWorld : World := ⟨[], 0, 0⟩

def haberdasherCtx : context.Context :=
  { context.Background with
    PackageName := some "twirp.example"
    ServiceName := some "Haberdasher" }


/-- A tracer as the tests build it, with a sampler. -/
def testTracer : Tracer := ⟨none, ⟨some 1, trace.SpanKindUnspecified⟩⟩

/-- The context of a routed call of the example service. -/
def makeHatCtx : context.Context :=
  { haberdasherCtx with MethodName := some "MakeHat" }

/-- A tag map as the tag library builds them: every key name and every value
passes the library's checks. -/
def tag.Map.valid (m : tag.Map) : Bool :=
  m.all fun kv => tag.checkKeyName kv.1.Name && tag.checkValue kv.2

/-- The entries `kvs` inserted one after the other. -/
def tag.Map.insertAll (m : tag.Map) (kvs : List (tag.Key × String)) : tag.Map :=
  kvs.foldl (fun m kv => m.insert kv.1 kv.2) m

/-- The value a tag has after the three client-side inserts or the server-side
inserts: `none` when the key is none of the package's four keys. -/
def ownTag (p s m c : Option String) (k : tag.Key) : Option String :=
  if k = PackageName then p
  else if k = ServiceName then s
  else if k = MethodName then m
  else if k = StatusCode then c
  else none

/-- A context whose package name is not printable ASCII. -/
def cafeCtx : context.Context :=
  { makeHatCtx with PackageName := some "café" }

/-- A context whose package name holds a percent sign. -/
def percentCtx : context.Context :=
  { haberdasherCtx with PackageName := some "hats%d" }

/-- A request whose context already has a tag for the package key. -/
def taggedRequest : http.Request :=
  ⟨"POST", "/twirp/twirp.example.Haberdasher/MakeHat",
    some { makeHatCtx with tags := some [(PackageName, "old")] }⟩

/-! ## Lemmas: tag keys -/

theorem PackageName_eq : PackageName = ⟨"twirp.package"⟩ := by decide
theorem ServiceName_eq : ServiceName = ⟨"twirp.service"⟩ := by decide
theorem MethodName_eq : MethodName = ⟨"twirp.method"⟩ := by decide
theorem StatusCode_eq : StatusCode = ⟨"twirp.status"⟩ := by decide

/-! ## Lemmas: tag.New leaves everything but the tag map alone -/

theorem tag_New_fields (ctx : context.Context) (ms : List tag.Mutator) :
    ∃ tags, (tag.New ctx ms).1 = { ctx with tags := tags } := by
  unfold tag.New
  simp only []
  split
  · exact ⟨ctx.tags, rfl⟩
  · split
    · exact ⟨ctx.tags, rfl⟩
    · exact ⟨_, rfl⟩

theorem tag_New_hookState (ctx : context.Context) (ms : List tag.Mutator) :
    (tag.New ctx ms).1.hookState = ctx.hookState := by
  obtain ⟨tags, h⟩ := tag_New_fields ctx ms
  rw [h]

theorem tag_New_span (ctx : context.Context) (ms : List tag.Mutator) :
    (tag.New ctx ms).1.span = ctx.span := by
  obtain ⟨tags, h⟩ := tag_New_fields ctx ms
  rw [h]

theorem tag_New_StatusCode (ctx : context.Context) (ms : List tag.Mutator) :
    (tag.New ctx ms).1.StatusCode = ctx.StatusCode := by
  obtain ⟨tags, h⟩ := tag_New_fields ctx ms
  rw [h]

theorem tag_New_MethodName (ctx : context.Context) (ms : List tag.Mutator) :
    (tag.New ctx ms).1.MethodName = ctx.MethodName := by
  obtain ⟨tags, h⟩ := tag_New_fields ctx ms
  rw [h]

/-! ## The transports -/

/-- Claim C1.  Neither transport layer touches the result: for every request
there is one request `r1` such that, whatever the inner transport is,
`beforeTransport.RoundTrip` returns exactly what the inner transport returns
for `r1`; and `afterTransport.RoundTrip` returns exactly what the inner
transport returns for the request `r` itself, called in a world `w1` that does
not depend on the inner transport.  The response and the error, nil or not,
are those of the inner transport. -/
theorem roundTrip_returns_inner_result (r : http.Request) (w : World) :
    (∃ r1 : http.Request, ∀ next : http.RoundTripper,
        beforeTransport.RoundTrip ⟨next⟩ r w = next.RoundTrip r1 w) ∧
    (∃ w1 : World, ∀ next : http.RoundTripper,
        afterTransport.RoundTrip ⟨next⟩ r w = next.RoundTrip r w1) := by
  refine ⟨⟨_, fun next => rfl⟩, ⟨_, fun next => rfl⟩⟩

/-- Claim C8.  The after layer calls the inner transport with the very request
it received.  The only effect before that call: when the context of the request
holds a span, one call of `AddAttributes` on that span with the three string
attributes twirp.package, twirp.service and twirp.method, their values read
from the context (empty when missing); when it holds no span, nothing. -/
theorem afterTransport_adds_attributes (r : http.Request) (w : World) :
    ∃ w1 : World,
      (∀ next : http.RoundTripper,
        afterTransport.RoundTrip ⟨next⟩ r w = next.RoundTrip r w1) ∧
      w1.nextSpan = w.nextSpan ∧ w1.now = w.now ∧
      w1.events = w.events ++
        (match trace.FromContext r.Context with
         | some span =>
           [Event.AddAttributes span
             [⟨"twirp.package", r.Context.PackageName.getD ""⟩,
              ⟨"twirp.service", r.Context.ServiceName.getD ""⟩,
              ⟨"twirp.method", r.Context.MethodName.getD ""⟩]]
         | none => []) := by
  refine ⟨_, fun next => rfl, ?_⟩
  cases h : trace.FromContext r.Context <;>
    simp [trace.Span.AddAttributes, World.log, trace.StringAttribute, tag.Key.Name,
      PackageName_eq, ServiceName_eq, MethodName_eq, twirp.PackageName, twirp.ServiceName,
      twirp.MethodName]

/-- Claim C10.  WrapTransport builds before -> ochttp -> after -> base: the
returned beforeTransport has as `next` a transport `o` that has every field of
`base` except `Base`; the field `Base` of `o` is an afterTransport whose `next`
is the `Base` of `base`, or the default transport when that is nil; and what
`base` points to is the same after the call. -/
theorem WrapTransport_layering (DefaultTransport : http.RoundTripper)
    (base : ochttp.Transport) :
    ∃ (o : ochttp.Transport) (a : afterTransport),
      (∀ asRoundTripper : ochttp.Transport → http.RoundTripper,
        (WrapTransport asRoundTripper DefaultTransport base).1.next = asRoundTripper o ∧
        (WrapTransport asRoundTripper DefaultTransport base).2 = base) ∧
      o.Base = some a.toRoundTripper ∧
      a.next = (match base.Base with
                | some orig => orig
                | none => DefaultTransport) ∧
      o.Propagation = base.Propagation ∧
      o.StartOptions = base.StartOptions ∧
      o.GetStartOptions = base.GetStartOptions ∧
      o.FormatSpanName = base.FormatSpanName ∧
      o.NewClientTrace = base.NewClientTrace := by
  refine ⟨_, _, fun asRoundTripper => ⟨rfl, rfl⟩, rfl, ?_, rfl, rfl, rfl, rfl, rfl⟩
  cases base.Base <;> rfl

/-! ## The server hooks -/

theorem requestReceived_events (t : Tracer) (ctx : context.Context) (w : World) :
    (t.requestReceived ctx w).2.events = w.events ++
      [Event.StartSpan ⟨w.nextSpan⟩ ctx.span
         (fmt.Sprintf (ctx.PackageName.getD "" ++ "." ++ ctx.ServiceName.getD ""))
         ⟨t.StartOptions.Sampler, trace.SpanKindServer⟩,
       Event.AddAttributes ⟨w.nextSpan⟩
         [⟨"twirp.package", ctx.PackageName.getD ""⟩,
          ⟨"twirp.service", ctx.ServiceName.getD ""⟩],
       Event.NewHookState ⟨w.now, ⟨w.nextSpan⟩⟩] := by
  simp [Tracer.requestReceived, trace.StartSpan, trace.Span.AddAttributes, World.log,
    trace.FromContext, tag_New_span, time.Now, trace.StringAttribute, tag.Key.Name,
    PackageName_eq, ServiceName_eq, twirp.PackageName, twirp.ServiceName,
    trace.WithSampler, trace.WithSpanKind]

theorem requestReceived_hookState (t : Tracer) (ctx : context.Context) (w : World) :
    (t.requestReceived ctx w).1.1.hookState = some ⟨w.now, ⟨w.nextSpan⟩⟩ := by
  simp [Tracer.requestReceived, trace.StartSpan, trace.Span.AddAttributes, World.log,
    time.Now, context.WithHookState]

theorem requestRouted_events (t : Tracer) (ctx : context.Context) (w : World)
    (hs : hookState) (h : ctx.hookState = some hs) :
    (t.requestRouted ctx w).2.events = w.events ++
      [Event.AddAttributes hs.span [⟨"twirp.method", ctx.MethodName.getD ""⟩]] ∧
    (t.requestRouted ctx w).1.1.hookState = some hs := by
  simp [Tracer.requestRouted, h, trace.Span.AddAttributes, World.log, trace.StringAttribute,
    tag.Key.Name, MethodName_eq, twirp.MethodName, tag_New_hookState]

theorem responseSent_events (t : Tracer) (ctx : context.Context) (w : World)
    (hs : hookState) (h : ctx.hookState = some hs) :
    (t.responseSent ctx w).events = w.events ++
      [Event.AddAttributes hs.span [⟨"twirp.status", ctx.StatusCode.getD ""⟩],
       Event.End hs.span,
       Event.Record (tag.New ctx [tag.Insert StatusCode (ctx.StatusCode.getD "")]).1.tags
         ServerLatency.name (w.now - hs.startTime)] := by
  simp [Tracer.responseSent, h, trace.Span.AddAttributes, World.log, trace.StringAttribute,
    tag.Key.Name, StatusCode_eq, twirp.StatusCode, tag_New_hookState, trace.Span.End,
    stats.Record, time.Since, tag.FromContext]

/-- Claim C5.  On a context without Hook State the routed hook returns the
same context and a nil error, and the sent hook returns; both leave the world
as it is, so no attribute is added, no span is ended and nothing is recorded. -/
theorem hooks_without_hookState (t : Tracer) (ctx : context.Context) (w : World)
    (h : ctx.hookState = none) :
    t.requestRouted ctx w = ((ctx, none), w) ∧ t.responseSent ctx w = w := by
  simp [Tracer.requestRouted, Tracer.responseSent, h, tag_New_hookState]

theorem hooks_without_hookState_witness :
    haberdasherCtx.hookState = none ∧
    (testTracer.requestRouted haberdasherCtx emptyWorld = ((haberdasherCtx, none), emptyWorld) ∧
      testTracer.responseSent haberdasherCtx emptyWorld = emptyWorld) :=
  ⟨rfl, hooks_without_hookState testTracer haberdasherCtx emptyWorld rfl⟩

/-- Claim C3.  In one request (received, then routed or not, then sent, each
hook on the context the hook before returned) exactly one Hook State is
allocated; it is the one the sent hook finds in its context; the received and
the routed hook end no span, and the sent hook ends the span of that Hook
State once and no other span.  The log only grows. -/
theorem one_hookState_span_ended_once (t : Tracer) (routed : Bool) (code : Option String)
    (d1 d2 : Nat) (ctx : context.Context) (w : World) :
    ∃ hs : hookState,
      (t.requestReceived ctx w).1.1.hookState = some hs ∧
      (serve t routed code d1 d2 ctx w).1.hookState = some hs ∧
      w.events <+: (t.requestReceived ctx w).2.events ∧
      (t.requestReceived ctx w).2.events <+: (serveRouted t routed d1 ctx w).2.events ∧
      (serveRouted t routed d1 ctx w).2.events <+: (serve t routed code d1 d2 ctx w).2.events ∧
      allocated (eventsSince w (serve t routed code d1 d2 ctx w).2) = [hs] ∧
      ended (eventsSince w (t.requestReceived ctx w).2) = [] ∧
      ended (eventsSince (t.requestReceived ctx w).2 (serveRouted t routed d1 ctx w).2) = [] ∧
      ended (eventsSince (serveRouted t routed d1 ctx w).2 (serve t routed code d1 d2 ctx w).2)
        = [hs.span] ∧
      ended (eventsSince w (serve t routed code d1 d2 ctx w).2) = [hs.span] := by
  refine ⟨⟨w.now, ⟨w.nextSpan⟩⟩, requestReceived_hookState t ctx w, ?_⟩
  have h1 := requestReceived_events t ctx w
  have h1s := requestReceived_hookState t ctx w
  cases routed
  · have hs3 : (withStatus (serveRouted t false d1 ctx w).1.1 code).hookState
        = some ⟨w.now, ⟨w.nextSpan⟩⟩ := by
      cases code <;> simp [serveRouted, withStatus, twirp.WithStatusCode, h1s]
    have h3 := responseSent_events t (withStatus (serveRouted t false d1 ctx w).1.1 code)
      ((serveRouted t false d1 ctx w).2.advance d2) _ hs3
    have h2 : (serveRouted t false d1 ctx w).2.events = (t.requestReceived ctx w).2.events := by
      simp [serveRouted, World.advance]
    simp only [serve, eventsSince]
    rw [h3]
    simp only [World.advance]
    rw [h2, h1]
    simp [hs3, allocated, ended, serve]
  · obtain ⟨h2, h2s⟩ := requestRouted_events t (t.requestReceived ctx w).1.1
      ((t.requestReceived ctx w).2.advance d1) _ h1s
    have hs3 : (withStatus (serveRouted t true d1 ctx w).1.1 code).hookState
        = some ⟨w.now, ⟨w.nextSpan⟩⟩ := by
      cases code <;> simp [serveRouted, withStatus, twirp.WithStatusCode, h2s]
    have h3 := responseSent_events t (withStatus (serveRouted t true d1 ctx w).1.1 code)
      ((serveRouted t true d1 ctx w).2.advance d2) _ hs3
    have h2e : (serveRouted t true d1 ctx w).2.events = (t.requestReceived ctx w).2.events ++
        [Event.AddAttributes ⟨w.nextSpan⟩
          [⟨"twirp.method", (t.requestReceived ctx w).1.1.MethodName.getD ""⟩]] := by
      simpa [serveRouted, World.advance] using h2
    simp only [serve, eventsSince]
    rw [h3]
    simp only [World.advance]
    rw [h2e, h1]
    simp [hs3, allocated, ended, serve]

/-! ## Lemmas: the tag map after tag.New -/

theorem insert_lookup (m : tag.Map) (k : tag.Key) (v : String) (k1 : tag.Key) :
    (m.insert k v).lookup k1 = (m ++ [(k, v)]).lookup k1 := by
  unfold tag.Map.insert
  split
  · rename_i h
    rw [List.lookup_append]
    by_cases hk : k1 = k
    · subst hk
      obtain ⟨x, hx⟩ := Option.isSome_iff_exists.mp h
      simp [hx]
    · have hb : (k1 == k) = false := by simpa using hk
      cases hm : List.lookup k1 m <;> simp [List.lookup_cons, hb]
  · rfl

theorem insertAll_lookup (kvs : List (tag.Key × String)) (m : tag.Map) (k1 : tag.Key) :
    (m.insertAll kvs).lookup k1 = (m ++ kvs).lookup k1 := by
  induction kvs generalizing m with
  | nil => simp [tag.Map.insertAll]
  | cons kv kvs ih =>
    obtain ⟨k, v⟩ := kv
    have h := ih (m.insert k v)
    simp only [tag.Map.insertAll, List.foldl_cons] at h ⊢
    rw [h, List.lookup_append, insert_lookup, List.lookup_append, List.lookup_append]
    cases hm : List.lookup k1 m <;> cases hk : (k1 == k) <;> simp [List.lookup_cons, hk]

theorem insert_valid (m : tag.Map) (k : tag.Key) (v : String)
    (hm : m.valid = true) (hk : tag.checkKeyName k.Name = true) (hv : tag.checkValue v = true) :
    (m.insert k v).valid = true := by
  unfold tag.Map.insert
  split
  · exact hm
  · simp only [tag.Map.valid, List.all_append, List.all_cons, List.all_nil, Bool.and_true,
      Bool.and_eq_true] at hm ⊢
    exact ⟨hm, hk, hv⟩

theorem insertAll_valid (kvs : List (tag.Key × String)) (m : tag.Map)
    (hm : m.valid = true) (hkvs : tag.Map.valid kvs = true) :
    (m.insertAll kvs).valid = true := by
  induction kvs generalizing m with
  | nil => simpa [tag.Map.insertAll] using hm
  | cons kv kvs ih =>
    simp only [tag.Map.valid, List.all_cons, Bool.and_eq_true] at hkvs
    have h := ih (m.insert kv.1 kv.2) (insert_valid m kv.1 kv.2 hm hkvs.1.1 hkvs.1.2)
      (by simpa [tag.Map.valid] using hkvs.2)
    simpa [tag.Map.insertAll] using h

theorem copyEntries_valid (orig : tag.Map) (m : tag.Map) (h : orig.valid = true) :
    tag.copyEntries orig m = .ok (m.insertAll orig) := by
  induction orig generalizing m with
  | nil => rfl
  | cons kv orig ih =>
    obtain ⟨k, v⟩ := kv
    simp only [tag.Map.valid, List.all_cons, Bool.and_eq_true] at h
    simp only [tag.copyEntries, h.1.1, h.1.2, Bool.not_true, Bool.false_eq_true, if_false]
    rw [ih _ (by simpa [tag.Map.valid] using h.2)]
    rfl

theorem applyMutators_inserts (kvs : List (tag.Key × String)) (m : tag.Map)
    (h : tag.Map.valid kvs = true) :
    tag.applyMutators (kvs.map fun kv => tag.Insert kv.1 kv.2) m = .ok (m.insertAll kvs) := by
  induction kvs generalizing m with
  | nil => rfl
  | cons kv kvs ih =>
    simp only [tag.Map.valid, List.all_cons, Bool.and_eq_true] at h
    have hmut : (tag.Insert kv.1 kv.2).Mutate m = .ok (m.insert kv.1 kv.2) := by
      simp [tag.Insert, h.1.2]
    simp only [List.map_cons, tag.applyMutators, hmut]
    rw [ih _ (by simpa [tag.Map.valid] using h.2)]
    rfl

/-- When the tag map of the context and the inserted entries are valid,
`tag.New` succeeds, and a key has the value of its first entry in the
original map followed by the inserted entries: an entry of the original map
is never replaced. -/
theorem tag_New_inserts (ctx : context.Context) (kvs : List (tag.Key × String))
    (horig : tag.Map.valid (ctx.tags.getD []) = true) (hkvs : tag.Map.valid kvs = true) :
    ∃ m : tag.Map,
      (tag.New ctx (kvs.map fun kv => tag.Insert kv.1 kv.2)).1 = { ctx with tags := some m } ∧
      m.valid = true ∧
      ∀ k, m.lookup k = (ctx.tags.getD [] ++ kvs).lookup k := by
  refine ⟨(tag.Map.insertAll [] (ctx.tags.getD [])).insertAll kvs, ?_, ?_, ?_⟩
  · simp only [tag.New, tag.FromContext, copyEntries_valid _ _ horig,
      applyMutators_inserts _ _ hkvs, tag.NewContext]
  · exact insertAll_valid _ _ (insertAll_valid _ _ rfl horig) hkvs
  · intro k
    rw [insertAll_lookup, List.lookup_append, insertAll_lookup, List.lookup_append,
      List.lookup_append]
    simp

/-! ## Lemmas: what the hooks do to the context -/

theorem requestReceived_ctx (t : Tracer) (ctx : context.Context) (w : World) :
    (t.requestReceived ctx w).1.1 =
      { (tag.New ctx [tag.Insert PackageName (twirp.PackageName ctx).1,
                      tag.Insert ServiceName (twirp.ServiceName ctx).1]).1 with
        span := some ⟨w.nextSpan⟩
        hookState := some ⟨w.now, ⟨w.nextSpan⟩⟩ } := rfl

theorem requestRouted_ctx (t : Tracer) (ctx : context.Context) (w : World)
    (hs : hookState) (h : ctx.hookState = some hs) :
    (t.requestRouted ctx w).1.1 =
      (tag.New ctx [tag.Insert MethodName (twirp.MethodName ctx).1]).1 := by
  simp [Tracer.requestRouted, h]

theorem keyNames_valid :
    tag.checkKeyName PackageName.Name = true ∧ tag.checkKeyName ServiceName.Name = true ∧
    tag.checkKeyName MethodName.Name = true ∧ tag.checkKeyName StatusCode.Name = true := by
  decide

/-- The tags of the context the received hook returns. -/
theorem requestReceived_tags (t : Tracer) (ctx : context.Context) (w : World)
    (horig : tag.Map.valid (ctx.tags.getD []) = true)
    (hp : tag.checkValue (twirp.PackageName ctx).1 = true)
    (hs : tag.checkValue (twirp.ServiceName ctx).1 = true) :
    ∃ m : tag.Map, (t.requestReceived ctx w).1.1.tags = some m ∧ m.valid = true ∧
      ∀ k, m.lookup k = (ctx.tags.getD [] ++
        [(PackageName, (twirp.PackageName ctx).1), (ServiceName, (twirp.ServiceName ctx).1)]).lookup k := by
  obtain ⟨m, e, v, l⟩ := tag_New_inserts ctx
    [(PackageName, (twirp.PackageName ctx).1), (ServiceName, (twirp.ServiceName ctx).1)] horig
    (by simp [tag.Map.valid, hp, hs, keyNames_valid])
  refine ⟨m, ?_, v, l⟩
  rw [requestReceived_ctx]
  simp only [List.map_cons, List.map_nil] at e
  rw [e]

/-- The tags of the context the routed hook returns. -/
theorem requestRouted_tags (t : Tracer) (ctx : context.Context) (w : World)
    (hs : hookState) (h : ctx.hookState = some hs)
    (horig : tag.Map.valid (ctx.tags.getD []) = true)
    (hm : tag.checkValue (twirp.MethodName ctx).1 = true) :
    ∃ m : tag.Map, (t.requestRouted ctx w).1.1.tags = some m ∧ m.valid = true ∧
      ∀ k, m.lookup k = (ctx.tags.getD [] ++ [(MethodName, (twirp.MethodName ctx).1)]).lookup k := by
  obtain ⟨m, e, v, l⟩ := tag_New_inserts ctx [(MethodName, (twirp.MethodName ctx).1)] horig
    (by simp [tag.Map.valid, hm, keyNames_valid])
  refine ⟨m, ?_, v, l⟩
  rw [requestRouted_ctx t ctx w hs h]
  simp only [List.map_cons, List.map_nil] at e
  rw [e]

/-- One request records exactly one measurement, of the server latency, under
the tags of the context of the sent hook after the insert of the status. -/
theorem serve_recorded (t : Tracer) (routed : Bool) (code : Option String)
    (d1 d2 : Nat) (ctx : context.Context) (w : World) :
    recorded (eventsSince w (serve t routed code d1 d2 ctx w).2) =
      [((tag.New (serve t routed code d1 d2 ctx w).1
          [tag.Insert StatusCode (twirp.StatusCode (serve t routed code d1 d2 ctx w).1).1]).1.tags,
        "twirp/server/latency")] := by
  have h1 := requestReceived_events t ctx w
  have h1s := requestReceived_hookState t ctx w
  cases routed
  · have hs3 : (withStatus (serveRouted t false d1 ctx w).1.1 code).hookState
        = some ⟨w.now, ⟨w.nextSpan⟩⟩ := by
      cases code <;> simp [serveRouted, withStatus, twirp.WithStatusCode, h1s]
    have h3 := responseSent_events t (withStatus (serveRouted t false d1 ctx w).1.1 code)
      ((serveRouted t false d1 ctx w).2.advance d2) _ hs3
    have h2 : (serveRouted t false d1 ctx w).2.events = (t.requestReceived ctx w).2.events := by
      simp [serveRouted, World.advance]
    simp only [serve, eventsSince]
    rw [h3]
    simp only [World.advance]
    rw [h2, h1]
    simp [recorded, twirp.StatusCode, ServerLatency, stats.Float64]
  · obtain ⟨h2, h2s⟩ := requestRouted_events t (t.requestReceived ctx w).1.1
      ((t.requestReceived ctx w).2.advance d1) _ h1s
    have hs3 : (withStatus (serveRouted t true d1 ctx w).1.1 code).hookState
        = some ⟨w.now, ⟨w.nextSpan⟩⟩ := by
      cases code <;> simp [serveRouted, withStatus, twirp.WithStatusCode, h2s]
    have h3 := responseSent_events t (withStatus (serveRouted t true d1 ctx w).1.1 code)
      ((serveRouted t true d1 ctx w).2.advance d2) _ hs3
    have h2e : (serveRouted t true d1 ctx w).2.events = (t.requestReceived ctx w).2.events ++
        [Event.AddAttributes ⟨w.nextSpan⟩
          [⟨"twirp.method", (t.requestReceived ctx w).1.1.MethodName.getD ""⟩]] := by
      simpa [serveRouted, World.advance] using h2
    simp only [serve, eventsSince]
    rw [h3]
    simp only [World.advance]
    rw [h2e, h1]
    simp [recorded, twirp.StatusCode, ServerLatency, stats.Float64]

theorem withStatus_tags (ctx : context.Context) (code : Option String) :
    (withStatus ctx code).tags = ctx.tags := by
  cases code <;> rfl

theorem lookup_cons_if (k a : tag.Key) (v : String) (l : List (tag.Key × String)) :
    List.lookup k ((a, v) :: l) = if k = a then some v else List.lookup k l := by
  rw [List.lookup_cons]
  by_cases h : k = a
  · subst h
    simp
  · have hb : (k == a) = false := by simpa using h
    simp [hb, h]

theorem ite_some_or (c : Prop) [Decidable c] (a : String) (x y : Option String) :
    (if c then some a else x).or y = if c then some a else x.or y := by
  split <;> simp

theorem ownTag_lookup (p s m c : String) (k : tag.Key) :
    List.lookup k [(PackageName, p), (ServiceName, s), (MethodName, m), (StatusCode, c)]
      = ownTag (some p) (some s) (some m) (some c) k := by
  unfold ownTag
  simp only [lookup_cons_if, List.lookup_nil]

theorem requestReceived_twirp (t : Tracer) (ctx : context.Context) (w : World) :
    (t.requestReceived ctx w).1.1.MethodName = ctx.MethodName ∧
    (t.requestReceived ctx w).1.1.StatusCode = ctx.StatusCode := by
  rw [requestReceived_ctx]
  exact ⟨tag_New_MethodName ctx _, tag_New_StatusCode ctx _⟩

theorem requestRouted_StatusCode (t : Tracer) (ctx : context.Context) (w : World) :
    (t.requestRouted ctx w).1.1.StatusCode = ctx.StatusCode := by
  unfold Tracer.requestRouted
  split
  · rfl
  · exact tag_New_StatusCode ctx _

theorem withStatus_StatusCode (c1 c2 : context.Context) (code : Option String)
    (h : c1.StatusCode = c2.StatusCode) :
    twirp.StatusCode (withStatus c1 code) = twirp.StatusCode (withStatus c2 code) := by
  cases code <;> simp [withStatus, twirp.StatusCode, twirp.WithStatusCode, h]

/-! ## The tags of the server latency measurement -/

/-- The tags the sent hook records under, from the tags of its context. -/
theorem sent_tags (c3 : context.Context) (m2 : tag.Map) (h2 : c3.tags = some m2)
    (v2 : m2.valid = true) (hc : tag.checkValue (twirp.StatusCode c3).1 = true) :
    ∃ m : tag.Map,
      (tag.New c3 [tag.Insert StatusCode (twirp.StatusCode c3).1]).1.tags = some m ∧
      ∀ k, m.lookup k = (m2 ++ [(StatusCode, (twirp.StatusCode c3).1)]).lookup k := by
  obtain ⟨m, e, _, l⟩ := tag_New_inserts c3 [(StatusCode, (twirp.StatusCode c3).1)]
    (by rw [h2]; exact v2) (by simp [tag.Map.valid, hc, keyNames_valid])
  refine ⟨m, ?_, ?_⟩
  · simp only [List.map_cons, List.map_nil] at e
    rw [e]
  · intro k
    rw [l k, h2]
    rfl

/-- Claim C4, amended.  Take a context without tags whose package, service,
method and status (the empty string for each that is missing) are valid tag
values: at most 255 bytes, all printable ASCII.  Received, routed, then sent
with the status code on the context records exactly one measurement, of the
server latency, and the tag map it is recorded under has exactly the four keys
package, service, method and status with those values. -/
theorem latency_tags_routed (t : Tracer) (code : Option String) (d1 d2 : Nat)
    (ctx : context.Context) (w : World)
    (hno : ctx.tags.getD [] = [])
    (hp : tag.checkValue (twirp.PackageName ctx).1 = true)
    (hs : tag.checkValue (twirp.ServiceName ctx).1 = true)
    (hm : tag.checkValue (twirp.MethodName ctx).1 = true)
    (hc : tag.checkValue (twirp.StatusCode (withStatus ctx code)).1 = true) :
    ∃ m : tag.Map,
      recorded (eventsSince w (serve t true code d1 d2 ctx w).2)
        = [(some m, "twirp/server/latency")] ∧
      ∀ k, m.Value k =
        ownTag (some (twirp.PackageName ctx).1) (some (twirp.ServiceName ctx).1)
          (some (twirp.MethodName ctx).1) (some (twirp.StatusCode (withStatus ctx code)).1) k := by
  obtain ⟨m1, e1, v1, l1⟩ := requestReceived_tags t ctx w (by rw [hno]; rfl) hp hs
  have hh := requestReceived_hookState t ctx w
  have htw := requestReceived_twirp t ctx w
  have hM : twirp.MethodName (t.requestReceived ctx w).1.1 = twirp.MethodName ctx := by
    simp [twirp.MethodName, htw.1]
  obtain ⟨m2, e2, v2, l2⟩ := requestRouted_tags t (t.requestReceived ctx w).1.1
    ((t.requestReceived ctx w).2.advance d1) _ hh (by rw [e1]; exact v1) (by rw [hM]; exact hm)
  have hctx3 : (serve t true code d1 d2 ctx w).1 =
      withStatus (t.requestRouted (t.requestReceived ctx w).1.1
        ((t.requestReceived ctx w).2.advance d1)).1.1 code := by
    simp [serve, serveRouted]
  have hS : twirp.StatusCode (serve t true code d1 d2 ctx w).1
      = twirp.StatusCode (withStatus ctx code) := by
    rw [hctx3]
    apply withStatus_StatusCode
    rw [requestRouted_StatusCode, htw.2]
  obtain ⟨m3, e3, l3⟩ := sent_tags (serve t true code d1 d2 ctx w).1 m2
    (by rw [hctx3, withStatus_tags, e2]) v2 (by rw [hS]; exact hc)
  refine ⟨m3, ?_, ?_⟩
  · rw [serve_recorded, e3]
  · intro k
    rw [← ownTag_lookup]
    simp only [tag.Map.Value]
    rw [l3 k, List.lookup_append, l2 k, e1, Option.getD_some, List.lookup_append, l1 k, hno, hS, hM]
    simp only [List.nil_append, lookup_cons_if, List.lookup_nil, ite_some_or, Option.none_or]

theorem latency_tags_routed_witness :
    (makeHatCtx.tags.getD [] = [] ∧
      tag.checkValue (twirp.PackageName makeHatCtx).1 = true ∧
      tag.checkValue (twirp.ServiceName makeHatCtx).1 = true ∧
      tag.checkValue (twirp.MethodName makeHatCtx).1 = true ∧
      tag.checkValue (twirp.StatusCode (withStatus makeHatCtx (some "200"))).1 = true) ∧
    ∃ m : tag.Map,
      recorded (eventsSince emptyWorld (serve testTracer true (some "200") 5 7 makeHatCtx emptyWorld).2)
        = [(some m, "twirp/server/latency")] ∧
      ∀ k, m.Value k =
        ownTag (some (twirp.PackageName makeHatCtx).1) (some (twirp.ServiceName makeHatCtx).1)
          (some (twirp.MethodName makeHatCtx).1)
          (some (twirp.StatusCode (withStatus makeHatCtx (some "200"))).1) k :=
  ⟨by decide,
   latency_tags_routed testTracer (some "200") 5 7 makeHatCtx emptyWorld
     (by decide) (by decide) (by decide) (by decide) (by decide)⟩

/-- Claim C4 as stated fails.  The context has no tags and carries the package
"café", the service "Haberdasher" and the method "MakeHat"; the status is
"200".  The insert of the package is refused (the value is not ASCII), the
error is dropped, and with it the insert of the service, so the one measurement
is recorded under the tags method and status only. -/
theorem latency_tags_invalid_package :
    cafeCtx.tags = none ∧
    twirp.PackageName cafeCtx = ("café", true) ∧
    twirp.ServiceName cafeCtx = ("Haberdasher", true) ∧
    recorded (eventsSince emptyWorld (serve testTracer true (some "200") 5 7 cafeCtx emptyWorld).2)
      = [(some [(MethodName, "MakeHat"), (StatusCode, "200")], "twirp/server/latency")] := by
  decide

/-- Claim C9, amended.  Take a context without tags whose package, service and
status are valid tag values.  Received, then sent with the status code on the
context, the routed hook skipped, records exactly one measurement; its tag map
has exactly the three keys package, service and status, and no entry for the
method key. -/
theorem latency_tags_unrouted (t : Tracer) (code : Option String) (d1 d2 : Nat)
    (ctx : context.Context) (w : World)
    (hno : ctx.tags.getD [] = [])
    (hp : tag.checkValue (twirp.PackageName ctx).1 = true)
    (hs : tag.checkValue (twirp.ServiceName ctx).1 = true)
    (hc : tag.checkValue (twirp.StatusCode (withStatus ctx code)).1 = true) :
    ∃ m : tag.Map,
      recorded (eventsSince w (serve t false code d1 d2 ctx w).2)
        = [(some m, "twirp/server/latency")] ∧
      m.Value MethodName = none ∧
      ∀ k, m.Value k =
        ownTag (some (twirp.PackageName ctx).1) (some (twirp.ServiceName ctx).1)
          none (some (twirp.StatusCode (withStatus ctx code)).1) k := by
  obtain ⟨m1, e1, v1, l1⟩ := requestReceived_tags t ctx w (by rw [hno]; rfl) hp hs
  have htw := requestReceived_twirp t ctx w
  have hctx3 : (serve t false code d1 d2 ctx w).1 =
      withStatus (t.requestReceived ctx w).1.1 code := by
    simp [serve, serveRouted]
  have hS : twirp.StatusCode (serve t false code d1 d2 ctx w).1
      = twirp.StatusCode (withStatus ctx code) := by
    rw [hctx3]
    exact withStatus_StatusCode _ _ _ htw.2
  obtain ⟨m3, e3, l3⟩ := sent_tags (serve t false code d1 d2 ctx w).1 m1
    (by rw [hctx3, withStatus_tags, e1]) v1 (by rw [hS]; exact hc)
  have hall : ∀ k, m3.Value k =
      ownTag (some (twirp.PackageName ctx).1) (some (twirp.ServiceName ctx).1)
        none (some (twirp.StatusCode (withStatus ctx code)).1) k := by
    intro k
    simp only [tag.Map.Value, ownTag]
    rw [l3 k, List.lookup_append, l1 k, hno, hS]
    simp only [List.nil_append, lookup_cons_if, List.lookup_nil, ite_some_or, Option.none_or]
    by_cases h1 : k = PackageName
    · simp [h1]
    · by_cases h2 : k = ServiceName
      · simp [h1, h2]
      · by_cases h3 : k = MethodName
        · subst h3
          simp [h1, h2]
          decide
        · simp [h1, h2, h3]
  refine ⟨m3, ?_, ?_, hall⟩
  · rw [serve_recorded, e3]
  · rw [hall MethodName]
    simp [ownTag, show MethodName ≠ PackageName by decide,
      show MethodName ≠ ServiceName by decide]

theorem latency_tags_unrouted_witness :
    (haberdasherCtx.tags.getD [] = [] ∧
      tag.checkValue (twirp.PackageName haberdasherCtx).1 = true ∧
      tag.checkValue (twirp.ServiceName haberdasherCtx).1 = true ∧
      tag.checkValue (twirp.StatusCode (withStatus haberdasherCtx (some "404"))).1 = true) ∧
    ∃ m : tag.Map,
      recorded (eventsSince emptyWorld
          (serve testTracer false (some "404") 5 7 haberdasherCtx emptyWorld).2)
        = [(some m, "twirp/server/latency")] ∧
      m.Value MethodName = none ∧
      ∀ k, m.Value k =
        ownTag (some (twirp.PackageName haberdasherCtx).1)
          (some (twirp.ServiceName haberdasherCtx).1)
          none (some (twirp.StatusCode (withStatus haberdasherCtx (some "404"))).1) k :=
  ⟨by decide,
   latency_tags_unrouted testTracer (some "404") 5 7 haberdasherCtx emptyWorld
     (by decide) (by decide) (by decide) (by decide)⟩

/-- Claim C9 as stated fails.  The context carries the package "twirp.example"
and the service "Haberdasher"; received, then sent with status "404", records
under a tag map that has no entry for the method key: the value of the method
tag is absent, not the empty string. -/
theorem latency_tags_unrouted_no_method :
    recorded (eventsSince emptyWorld
        (serve testTracer false (some "404") 5 7 haberdasherCtx emptyWorld).2)
      = [(some [(PackageName, "twirp.example"), (ServiceName, "Haberdasher"),
                (StatusCode, "404")], "twirp/server/latency")] ∧
    tag.Map.Value [(PackageName, "twirp.example"), (ServiceName, "Haberdasher"),
                   (StatusCode, "404")] MethodName = none ∧
    tag.Map.Value [(PackageName, "twirp.example"), (ServiceName, "Haberdasher"),
                   (StatusCode, "404")] MethodName ≠ some "" := by
  decide

/-! ## The tags the before layer inserts -/

/-- Claim C6, amended.  Take a request whose context has a valid tag map (or
none) and whose package, service and method (the empty string for each that is
missing) are valid tag values.  The request the before layer hands to the inner
transport is the request with only the tag map of its context changed, and in
the new map a key that had a tag keeps that tag, whatever the RPC metadata
says; the keys package, service and method that had no tag get the value read
from the context; no other key gets a tag. -/
theorem beforeTransport_tags (r : http.Request)
    (horig : tag.Map.valid (r.Context.tags.getD []) = true)
    (hp : tag.checkValue (twirp.PackageName r.Context).1 = true)
    (hs : tag.checkValue (twirp.ServiceName r.Context).1 = true)
    (hm : tag.checkValue (twirp.MethodName r.Context).1 = true) :
    ∃ (r1 : http.Request) (m : tag.Map),
      (∀ (next : http.RoundTripper) (w : World),
        beforeTransport.RoundTrip ⟨next⟩ r w = next.RoundTrip r1 w) ∧
      r1 = r.WithContext { r.Context with tags := some m } ∧
      ∀ k, m.Value k =
        ((r.Context.tags.getD []).Value k).or
          (ownTag (some (twirp.PackageName r.Context).1) (some (twirp.ServiceName r.Context).1)
            (some (twirp.MethodName r.Context).1) none k) := by
  obtain ⟨m, e, _, l⟩ := tag_New_inserts r.Context
    [(PackageName, (twirp.PackageName r.Context).1),
     (ServiceName, (twirp.ServiceName r.Context).1),
     (MethodName, (twirp.MethodName r.Context).1)] horig
    (by simp [tag.Map.valid, hp, hs, hm, keyNames_valid])
  simp only [List.map_cons, List.map_nil] at e
  refine ⟨_, m, fun next w => rfl, ?_, ?_⟩
  · rw [e]
  · intro k
    simp only [tag.Map.Value, ownTag]
    rw [l k, List.lookup_append]
    simp only [lookup_cons_if, List.lookup_nil]
    by_cases h1 : k = PackageName
    · simp [h1]
    · by_cases h2 : k = ServiceName
      · simp [h1, h2]
      · by_cases h3 : k = MethodName <;> simp [h1, h2, h3]

theorem beforeTransport_tags_witness :
    (tag.Map.valid (taggedRequest.Context.tags.getD []) = true ∧
      tag.checkValue (twirp.PackageName taggedRequest.Context).1 = true ∧
      tag.checkValue (twirp.ServiceName taggedRequest.Context).1 = true ∧
      tag.checkValue (twirp.MethodName taggedRequest.Context).1 = true) ∧
    ∃ (r1 : http.Request) (m : tag.Map),
      (∀ (next : http.RoundTripper) (w : World),
        beforeTransport.RoundTrip ⟨next⟩ taggedRequest w = next.RoundTrip r1 w) ∧
      r1 = taggedRequest.WithContext { taggedRequest.Context with tags := some m } ∧
      ∀ k, m.Value k =
        ((taggedRequest.Context.tags.getD []).Value k).or
          (ownTag (some (twirp.PackageName taggedRequest.Context).1)
            (some (twirp.ServiceName taggedRequest.Context).1)
            (some (twirp.MethodName taggedRequest.Context).1) none k) :=
  ⟨by decide,
   beforeTransport_tags taggedRequest (by decide) (by decide) (by decide) (by decide)⟩

/-- Claim C6 as stated fails.  The context of the request carries the package
"twirp.example" and already has the tag twirp.package = "old".  The request the
inner transport gets still has the tag twirp.package = "old": the value read
from the RPC metadata does not win. -/
theorem beforeTransport_keeps_existing_tag :
    (twirp.PackageName taggedRequest.Context).1 = "twirp.example" ∧
    (beforeTransport.RoundTrip ⟨echoTransport⟩ taggedRequest emptyWorld).1.1 =
      some ⟨200, some (taggedRequest.WithContext
        { makeHatCtx with
          tags := some [(PackageName, "old"), (ServiceName, "Haberdasher"),
                        (MethodName, "MakeHat")] })⟩ ∧
    tag.Map.Value [(PackageName, "old"), (ServiceName, "Haberdasher"),
                   (MethodName, "MakeHat")] PackageName = some "old" := by
  decide

/-! ## The views -/

/-- Claim C7, amended.  The two server views have the tag keys twirp.package,
twirp.service, twirp.method and twirp.status.  The client view has four keys
too, the first three the same and the fourth `ochttp.StatusCode`, the key
http.status, instead of twirp.status. -/
theorem view_tag_keys :
    ServerLatencyView.TagKeys = [PackageName, ServiceName, MethodName, StatusCode] ∧
    ServerResponseView.TagKeys = [PackageName, ServiceName, MethodName, StatusCode] ∧
    ClientRoundtripLatency.TagKeys = [PackageName, ServiceName, MethodName, ochttp.StatusCode] ∧
    [PackageName, ServiceName, MethodName, StatusCode].map tag.Key.Name
      = ["twirp.package", "twirp.service", "twirp.method", "twirp.status"] ∧
    ochttp.StatusCode.Name = "http.status" := by
  decide

/-- Claim C7 as stated fails: the key `StatusCode` (twirp.status) is not a tag
key of the client view, whose key set differs from that of the server views. -/
theorem client_view_lacks_twirp_status :
    StatusCode ∉ ClientRoundtripLatency.TagKeys ∧
    ClientRoundtripLatency.TagKeys ≠ ServerLatencyView.TagKeys := by
  decide

/-! ## The name of the server span -/

theorem doPrintf_no_percent (l : List Char) (fuel : Nat) (hfuel : l.length ≤ fuel)
    (h : ∀ c ∈ l, c ≠ fmt.percentSign) : fmt.doPrintf fuel l = l := by
  induction l generalizing fuel with
  | nil => cases fuel <;> rfl
  | cons c cs ih =>
    cases fuel with
    | zero => simp at hfuel
    | succ fuel =>
      have hc : (c == fmt.percentSign) = false := by
        simpa using h c (List.mem_cons_self c cs)
      simp only [fmt.doPrintf, hc, Bool.false_eq_true, if_false]
      rw [ih fuel (by simpa using hfuel) (fun d hd => h d (List.mem_cons_of_mem c hd))]

/-- Without a percent sign the format is printed as it is. -/
theorem Sprintf_no_percent (format : String)
    (h : ∀ c ∈ format.toList, c ≠ fmt.percentSign) : fmt.Sprintf format = format := by
  obtain ⟨data⟩ := format
  show String.mk (fmt.doPrintf data.length data) = String.mk data
  rw [doPrintf_no_percent data data.length (Nat.le_refl _) h]

/-- Claim C2 at the failing input.  The context carries the package "hats%d"
and the service "Haberdasher".  The received hook returns a nil error and
starts a server span with the right attributes, but the name of the span is
"hats%!d(MISSING).Haberdasher" and not "hats%d.Haberdasher": the name is passed
to `fmt.Sprintf` as the format. -/
theorem requestReceived_span_name_percent :
    twirp.PackageName percentCtx = ("hats%d", true) ∧
    twirp.ServiceName percentCtx = ("Haberdasher", true) ∧
    (testTracer.requestReceived percentCtx emptyWorld).1.2 = none ∧
    (testTracer.requestReceived percentCtx emptyWorld).2.events =
      [Event.StartSpan ⟨0⟩ none "hats%!d(MISSING).Haberdasher" ⟨some 1, trace.SpanKindServer⟩,
       Event.AddAttributes ⟨0⟩
         [⟨"twirp.package", "hats%d"⟩, ⟨"twirp.service", "Haberdasher"⟩],
       Event.NewHookState ⟨0, ⟨0⟩⟩] ∧
    "hats%!d(MISSING).Haberdasher" ≠ "hats%d" ++ "." ++ "Haberdasher" := by
  decide

/-- The received hook on names without a percent sign: a nil error, and a
server span named package "." service, with the package and the service as
attributes. -/
theorem requestReceived_span (t : Tracer) (ctx : context.Context) (w : World)
    (hp : ∀ c ∈ (twirp.PackageName ctx).1.toList, c ≠ fmt.percentSign)
    (hs : ∀ c ∈ (twirp.ServiceName ctx).1.toList, c ≠ fmt.percentSign) :
    (t.requestReceived ctx w).1.2 = none ∧
    (t.requestReceived ctx w).2.events = w.events ++
      [Event.StartSpan ⟨w.nextSpan⟩ ctx.span
         ((twirp.PackageName ctx).1 ++ "." ++ (twirp.ServiceName ctx).1)
         ⟨t.StartOptions.Sampler, trace.SpanKindServer⟩,
       Event.AddAttributes ⟨w.nextSpan⟩
         [⟨"twirp.package", (twirp.PackageName ctx).1⟩,
          ⟨"twirp.service", (twirp.ServiceName ctx).1⟩],
       Event.NewHookState ⟨w.now, ⟨w.nextSpan⟩⟩] := by
  refine ⟨rfl, ?_⟩
  rw [requestReceived_events]
  have hfmt : fmt.Sprintf (ctx.PackageName.getD "" ++ "." ++ ctx.ServiceName.getD "")
      = ctx.PackageName.getD "" ++ "." ++ ctx.ServiceName.getD "" := by
    apply Sprintf_no_percent
    intro c hc
    simp only [String.toList, String.data_append, List.mem_append] at hc
    rcases hc with (hc | hc) | hc
    · exact hp c hc
    · have : c = '.' := by simpa using hc
      subst this
      decide
    · exact hs c hc
  rw [hfmt]
  rfl
